import Mathlib

/-!
Shallow embedding of the feature-preparation / target-row-selection pipeline
of `streamlit_app.py` (function `get_predictions` and the display-side clip),
together with proofs of the spec's claims about it.

Rows of the warehouse table `shift_sales` are modelled as `ShiftSalesRecord`;
a dataframe is a `List` of rows.  SQL aggregation semantics (AVG skipping
NULLs, MIN over an empty set being NULL, `col = NULL` never holding) are
embedded explicitly.  Numeric sales values are rationals, dates are naturals
(ordinal encoding of calendar dates).
-/

/-- One row of `frostbyte_tasty_bytes_dev.analytics.shift_sales`.
`shift_sales = none` models a SQL NULL (a future, not-yet-observed shift). -/
structure ShiftSalesRecord where
  location_id : Nat
  city : String
  shift : String
  date : Nat
  shift_sales : Option ℚ
  latitude : ℚ
  longitude : ℚ
  city_population : Nat
  month : Nat
  day_of_week : Nat
deriving DecidableEq

/-- SQL `AVG` over the values of a window frame: NULLs contribute neither to
the sum nor to the count; the result is NULL when no non-null value exists. -/
def sqlAvg (l : List (Option ℚ)) : Option ℚ :=
  let vs := l.filterMap id
  if vs.isEmpty then none else some (vs.sum / vs.length)

/-- SQL `MIN` over a list of dates: NULL (`none`) on the empty list. -/
def sqlMin : List Nat → Option Nat
  | [] => none
  | d :: ds =>
    match sqlMin ds with
    | none => some d
    | some m => some (Nat.min d m)

/-- The partition key of `window_by_location_all_days`:
`Window.partition_by("location_id", "shift")` (line 115). -/
def sameWindowPartition (a b : ShiftSalesRecord) : Bool :=
  a.location_id == b.location_id && a.shift == b.shift

/-- The `shift_sales` values of the window frame
`rows_between(Window.UNBOUNDED_PRECEDING, Window.CURRENT_ROW - 1)` ordered by
`date` (lines 114-118), for the current row `r`: all rows of the same
partition that sort strictly before `r`.  `before` and `after` are the rows
preceding and following `r` in the input table; a stable sort by `date` puts
a same-partition row ahead of `r` exactly when its date is smaller, or equal
with an earlier input position.  (`sqlAvg` is insensitive to the order in
which the frame's values are listed.) -/
def frameSales (before : List ShiftSalesRecord) (r : ShiftSalesRecord)
    (after : List ShiftSalesRecord) : List (Option ℚ) :=
  ((before.filter (fun s => sameWindowPartition s r && decide (s.date ≤ r.date))).map
      (fun s => s.shift_sales))
    ++ ((after.filter (fun s => sameWindowPartition s r && decide (s.date < r.date))).map
      (fun s => s.shift_sales))

/-- A row together with the attached window-average column
`avg_location_shift_sales` (nullable: NULL when the frame holds no non-null
value). -/
structure AugRecord where
  row : ShiftSalesRecord
  avg_location_shift_sales : Option ℚ
deriving DecidableEq

/-- Worker for `computeTrailingAverage`: walks the table, keeping the rows
already passed in `before`. -/
def computeTrailingAverageGo (before : List ShiftSalesRecord) :
    List ShiftSalesRecord → List AugRecord
  | [] => []
  | r :: after =>
    ⟨r, sqlAvg (frameSales before r after)⟩ ::
      computeTrailingAverageGo (before ++ [r]) after

/-- The `with_column("avg_location_shift_sales", avg("shift_sales").over(...))`
step (lines 120-123): every row keeps its columns and gains the trailing
average of `shift_sales` over the strictly preceding rows of its
(location_id, shift) partition in date order. -/
def computeTrailingAverage (rs : List ShiftSalesRecord) : List AugRecord :=
  computeTrailingAverageGo [] rs

/-- The filter `(col("shift") == shift) & (col("city") == city)`
(lines 109-111). -/
def filterCityShift (rs : List ShiftSalesRecord) (city shift : String) :
    List ShiftSalesRecord :=
  rs.filter (fun r => r.shift == shift && r.city == city)

/-- Lines 126-130: `filter(col("shift_sales").is_null()).select(min("date"))`.
The result is NULL (`none`) when no null-sales row exists, because SQL MIN
over an empty set is NULL. -/
def selectTargetDate (rs : List ShiftSalesRecord) : Option Nat :=
  sqlMin ((rs.filter (fun r => r.shift_sales == none)).map (fun r => r.date))

/-- The encode step `with_column("shift", iff(col("shift") == "AM", 1, 0))`
(line 139). -/
def encodeShift (s : String) : ℚ :=
  if s == "AM" then 1 else 0

/-- A row after the target-date filter, imputation and shift encoding: all
feature columns the inference call reads, the raw `shift_sales` column gone. -/
structure FeatureRow where
  location_id : Nat
  latitude : ℚ
  longitude : ℚ
  avg_location_shift_sales : ℚ
  shift : ℚ
  month : Nat
  day_of_week : Nat
  city_population : Nat
deriving DecidableEq

/-- Lines 133-139: filter to `date = date_tomorrow` (a `col = NULL` predicate
holds for no row, so a `none` target date keeps nothing), impute the null
averages with 0 (`fillna(value=0, subset=["avg_location_shift_sales"])`) and
encode the shift.  The raw `shift_sales` column is not carried over. -/
def buildFeatureRows (aug : List AugRecord) (d : Option Nat) : List FeatureRow :=
  (aug.filter (fun a =>
      match d with
      | none => false
      | some dd => a.row.date == dd)).map
    (fun a =>
      { location_id := a.row.location_id
        latitude := a.row.latitude
        longitude := a.row.longitude
        avg_location_shift_sales := a.avg_location_shift_sales.getD 0
        shift := encodeShift a.row.shift
        month := a.row.month
        day_of_week := a.row.day_of_week
        city_population := a.row.city_population })

/-- The argument list handed to `udf_linreg_predict_location_sales`:
`feature_cols = [MONTH, DAY_OF_WEEK, LATITUDE, LONGITUDE, CITY_POPULATION,
AVG_LOCATION_SHIFT_SALES, SHIFT]` (lines 142-150). -/
def featureVector (f : FeatureRow) : List ℚ :=
  [(f.month : ℚ), (f.day_of_week : ℚ), f.latitude, f.longitude,
    (f.city_population : ℚ), f.avg_location_shift_sales, f.shift]

/-- One row of the final `select` (lines 153-161). -/
structure PredictionRow where
  location_id : Nat
  latitude : ℚ
  longitude : ℚ
  avg_location_shift_sales : ℚ
  predicted_shift_sales : ℚ
deriving DecidableEq

/-- The feature rows the pipeline builds for a given city and shift:
filter, attach the window average, pick the target date, filter to it,
impute and encode. -/
def featureRowsOf (rs : List ShiftSalesRecord) (city shift : String) :
    List FeatureRow :=
  buildFeatureRows (computeTrailingAverage (filterCityShift rs city shift))
    (selectTargetDate (filterCityShift rs city shift))

/-- The whole of `get_predictions` (lines 107-163).  The external inference
UDF is a parameter `udf`; the function returns the selected columns plus the
prediction. -/
def get_predictions (udf : List ℚ → ℚ) (rs : List ShiftSalesRecord)
    (city shift : String) : List PredictionRow :=
  (featureRowsOf rs city shift).map (fun f =>
    { location_id := f.location_id
      latitude := f.latitude
      longitude := f.longitude
      avg_location_shift_sales := f.avg_location_shift_sales
      predicted_shift_sales := udf (featureVector f) })

/-- Line 172: `predictions["PREDICTED_SHIFT_SALES"].clip(0, inplace=True)` —
pandas clip with lower bound 0. -/
def clipPredictions (ps : List PredictionRow) : List PredictionRow :=
  ps.map (fun p => { p with predicted_shift_sales := max p.predicted_shift_sales 0 })

/-- Spec-side characterisation of the window frame: the `shift_sales` values of
exactly those rows of `rs` that share the partition key with `r` and carry a
strictly earlier date. -/
def strictlyPriorSales (rs : List ShiftSalesRecord) (r : ShiftSalesRecord) :
    List (Option ℚ) :=
  (rs.filter (fun s => sameWindowPartition s r && decide (s.date < r.date))).map
    (fun s => s.shift_sales)

/-- The data-model invariant of the spec, restricted to what the window needs:
no two rows of the same (location_id, shift) partition share a date. -/
def DistinctDatesPerPartition (rs : List ShiftSalesRecord) : Prop :=
  rs.Pairwise (fun a b => sameWindowPartition a b = true → a.date ≠ b.date)

instance (rs : List ShiftSalesRecord) : Decidable (DistinctDatesPerPartition rs) := by
  unfold DistinctDatesPerPartition
  infer_instance

theorem sameWindowPartition_self (r : ShiftSalesRecord) :
    sameWindowPartition r r = true := by
  simp [sameWindowPartition]

/-- Unfolding lemma: on a partition-wise duplicate-free table the stable
window frame of a row is exactly its strictly-earlier-date partition mates. -/
theorem computeTrailingAverageGo_eq_strictlyPrior :
    ∀ (after before : List ShiftSalesRecord),
      DistinctDatesPerPartition (before ++ after) →
      computeTrailingAverageGo before after =
        after.map (fun r => ⟨r, sqlAvg (strictlyPriorSales (before ++ after) r)⟩) := by
  intro after
  induction after with
  | nil => intro before _; rfl
  | cons r rest ih =>
    intro before hpw
    have hpw' : DistinctDatesPerPartition ((before ++ [r]) ++ rest) := by
      rwa [List.append_assoc, List.singleton_append]
    have hne : ∀ s ∈ before, sameWindowPartition s r = true → s.date ≠ r.date := by
      intro s hs
      rcases List.pairwise_append.mp hpw with ⟨-, -, hcross⟩
      exact hcross s hs r (List.mem_cons_self r rest)
    have hframe : frameSales before r rest = strictlyPriorSales (before ++ r :: rest) r := by
      unfold frameSales strictlyPriorSales
      rw [List.filter_append, List.filter_cons]
      have hr : (sameWindowPartition r r && decide (r.date < r.date)) = false := by
        simp
      rw [hr]
      have hb : before.filter (fun s => sameWindowPartition s r && decide (s.date ≤ r.date)) =
          before.filter (fun s => sameWindowPartition s r && decide (s.date < r.date)) := by
        apply List.filter_congr
        intro s hs
        by_cases hp : sameWindowPartition s r = true
        · have : s.date ≠ r.date := hne s hs hp
          simp [hp, Nat.lt_iff_le_and_ne, this]
        · simp at hp
          simp [hp]
      rw [hb, List.map_append]
      simp
    simp only [computeTrailingAverageGo, List.map_cons]
    refine congrArg₂ _ (by rw [hframe]) ?_
    rw [ih (before ++ [r]) hpw']
    have hlists : (before ++ [r]) ++ rest = before ++ r :: rest := by
      rw [List.append_assoc, List.singleton_append]
    rw [hlists]

/-- C1: on any table whose (location_id, shift) partitions carry pairwise
distinct dates — the data-model uniqueness invariant — `computeTrailingAverage`
assigns every record the SQL average of `shift_sales` over exactly the records
of its own partition with a strictly earlier date; the record's own value and
every equal-or-later-dated partition mate are excluded. -/
theorem computeTrailingAverage_uses_only_strictly_prior_rows
    (rs : List ShiftSalesRecord) (h : DistinctDatesPerPartition rs) :
    computeTrailingAverage rs =
      rs.map (fun r => ⟨r, sqlAvg (strictlyPriorSales rs r)⟩) := by
  have hgo := computeTrailingAverageGo_eq_strictlyPrior rs [] (by simpa using h)
  simpa [computeTrailingAverage] using hgo

/-- Concrete instantiation of
`computeTrailingAverage_uses_only_strictly_prior_rows`. -/
theorem computeTrailingAverage_uses_only_strictly_prior_rows_witness :
    DistinctDatesPerPartition
      [⟨1, "Seattle", "AM", 3, none, 0, 0, 100, 1, 3⟩,
       ⟨1, "Seattle", "AM", 1, some 10, 0, 0, 100, 1, 1⟩,
       ⟨1, "Seattle", "AM", 2, some 20, 0, 0, 100, 1, 2⟩] ∧
    computeTrailingAverage
      [⟨1, "Seattle", "AM", 3, none, 0, 0, 100, 1, 3⟩,
       ⟨1, "Seattle", "AM", 1, some 10, 0, 0, 100, 1, 1⟩,
       ⟨1, "Seattle", "AM", 2, some 20, 0, 0, 100, 1, 2⟩] =
      [⟨1, "Seattle", "AM", 3, none, 0, 0, 100, 1, 3⟩,
       ⟨1, "Seattle", "AM", 1, some 10, 0, 0, 100, 1, 1⟩,
       ⟨1, "Seattle", "AM", 2, some 20, 0, 0, 100, 1, 2⟩].map
        (fun r =>
          ⟨r, sqlAvg (strictlyPriorSales
            [⟨1, "Seattle", "AM", 3, none, 0, 0, 100, 1, 3⟩,
             ⟨1, "Seattle", "AM", 1, some 10, 0, 0, 100, 1, 1⟩,
             ⟨1, "Seattle", "AM", 2, some 20, 0, 0, 100, 1, 2⟩] r)⟩) :=
  ⟨by decide, computeTrailingAverage_uses_only_strictly_prior_rows _ (by decide)⟩

theorem sqlMin_eq_none_iff (l : List Nat) : sqlMin l = none ↔ l = [] := by
  cases l with
  | nil => simp [sqlMin]
  | cons d ds =>
    simp only [sqlMin]
    cases sqlMin ds <;> simp

theorem sqlMin_spec (l : List Nat) (d : Nat) (h : sqlMin l = some d) :
    d ∈ l ∧ ∀ x ∈ l, d ≤ x := by
  induction l generalizing d with
  | nil => simp [sqlMin] at h
  | cons a t ih =>
    simp only [sqlMin] at h
    cases ht : sqlMin t with
    | none =>
      rw [ht] at h
      have hd : d = a := by simpa using h.symm
      have htnil : t = [] := (sqlMin_eq_none_iff t).mp ht
      subst hd htnil
      simp
    | some m =>
      rw [ht] at h
      have hd : d = Nat.min a m := by simpa using h.symm
      obtain ⟨hmem, hle⟩ := ih m ht
      subst hd
      constructor
      · rcases Nat.le_total a m with ham | hma
        · simp [Nat.min_eq_left ham]
        · simp [Nat.min_eq_right hma, hmem]
      · intro x hx
        rcases List.mem_cons.mp hx with hxa | hxt
        · subst hxa; exact Nat.min_le_left _ _
        · exact le_trans (Nat.min_le_right a m) (hle x hxt)

/-- C2: whenever the record set filtered to the chosen city and shift holds a
null-sales row, `selectTargetDate` returns a date that belongs to a null-sales
row and is a lower bound of every null-sales row's date — the minimum date
among the null-valued rows.  `selectTargetDate` is a function of the filtered
list alone, so the result is the same on every run over identical input. -/
theorem selectTargetDate_is_min_null_date (rs : List ShiftSalesRecord)
    (city shift : String)
    (h : ∃ r ∈ filterCityShift rs city shift, r.shift_sales = none) :
    ∃ d, selectTargetDate (filterCityShift rs city shift) = some d ∧
      (∃ r ∈ filterCityShift rs city shift, r.shift_sales = none ∧ r.date = d) ∧
      (∀ r ∈ filterCityShift rs city shift, r.shift_sales = none → d ≤ r.date) := by
  obtain ⟨r, hr, hnull⟩ := h
  have hrnl : r ∈ (filterCityShift rs city shift).filter
      (fun s => s.shift_sales == none) :=
    List.mem_filter.mpr ⟨hr, by simp [hnull]⟩
  have hne : ((filterCityShift rs city shift).filter
      (fun s => s.shift_sales == none)).map (fun s => s.date) ≠ [] :=
    List.ne_nil_of_mem (List.mem_map_of_mem (fun s => s.date) hrnl)
  have hsome : ∃ d, sqlMin (((filterCityShift rs city shift).filter
      (fun s => s.shift_sales == none)).map (fun s => s.date)) = some d := by
    cases hm : sqlMin (((filterCityShift rs city shift).filter
        (fun s => s.shift_sales == none)).map (fun s => s.date)) with
    | none => exact absurd ((sqlMin_eq_none_iff _).mp hm) hne
    | some d => exact ⟨d, rfl⟩
  obtain ⟨d, hd⟩ := hsome
  obtain ⟨hdmem, hdle⟩ := sqlMin_spec _ _ hd
  refine ⟨d, by simpa [selectTargetDate] using hd, ?_, ?_⟩
  · obtain ⟨s, hs, hsd⟩ := List.mem_map.mp hdmem
    obtain ⟨hsfl, hsnull⟩ := List.mem_filter.mp hs
    exact ⟨s, hsfl, by simpa using hsnull, hsd⟩
  · intro s hs hsnull
    exact hdle s.date (List.mem_map_of_mem (fun x => x.date)
      (List.mem_filter.mpr ⟨hs, by simp [hsnull]⟩))

/-- Concrete instantiation of `selectTargetDate_is_min_null_date`. -/
theorem selectTargetDate_is_min_null_date_witness :
    ∃ d, selectTargetDate (filterCityShift
        [⟨1, "Seattle", "AM", 5, none, 0, 0, 100, 1, 5⟩,
         ⟨1, "Seattle", "AM", 1, some 10, 0, 0, 100, 1, 1⟩,
         ⟨2, "Seattle", "AM", 3, none, 0, 0, 100, 1, 3⟩] "Seattle" "AM") = some d ∧
      (∃ r ∈ filterCityShift
          [⟨1, "Seattle", "AM", 5, none, 0, 0, 100, 1, 5⟩,
           ⟨1, "Seattle", "AM", 1, some 10, 0, 0, 100, 1, 1⟩,
           ⟨2, "Seattle", "AM", 3, none, 0, 0, 100, 1, 3⟩] "Seattle" "AM",
        r.shift_sales = none ∧ r.date = d) ∧
      (∀ r ∈ filterCityShift
          [⟨1, "Seattle", "AM", 5, none, 0, 0, 100, 1, 5⟩,
           ⟨1, "Seattle", "AM", 1, some 10, 0, 0, 100, 1, 1⟩,
           ⟨2, "Seattle", "AM", 3, none, 0, 0, 100, 1, 3⟩] "Seattle" "AM",
        r.shift_sales = none → d ≤ r.date) :=
  selectTargetDate_is_min_null_date _ "Seattle" "AM" (by decide)

theorem buildFeatureRows_none (aug : List AugRecord) :
    buildFeatureRows aug none = [] := by
  unfold buildFeatureRows
  rw [List.filter_eq_nil_iff.mpr (fun a _ => by simp)]
  rfl

/-- C3, counterexample to the claim as stated: on a city/shift whose filtered
records are non-empty but hold no null-sales placeholder, `get_predictions`
does not fail with any error condition — it silently returns the empty result
set (SQL MIN over no rows is NULL and `date = NULL` keeps nothing). -/
theorem no_placeholder_returns_empty_counterexample :
    filterCityShift [⟨1, "Seattle", "AM", 1, some 10, 0, 0, 100, 1, 1⟩]
        "Seattle" "AM" ≠ [] ∧
    (∀ r ∈ filterCityShift [⟨1, "Seattle", "AM", 1, some 10, 0, 0, 100, 1, 1⟩]
        "Seattle" "AM", r.shift_sales ≠ none) ∧
    get_predictions (fun v => v.sum)
      [⟨1, "Seattle", "AM", 1, some 10, 0, 0, 100, 1, 1⟩] "Seattle" "AM" = [] := by
  refine ⟨by decide, by decide, ?_⟩
  exact rfl

/-- C3, amended: when the filtered record set holds no null-sales row, the
target date comes out NULL and the pipeline silently returns the empty result
set to the caller; no explicit NoTargetDateFound error condition exists. -/
theorem no_placeholder_returns_empty (udf : List ℚ → ℚ)
    (rs : List ShiftSalesRecord) (city shift : String)
    (h : ∀ r ∈ filterCityShift rs city shift, r.shift_sales ≠ none) :
    selectTargetDate (filterCityShift rs city shift) = none ∧
    get_predictions udf rs city shift = [] := by
  have hnl : (filterCityShift rs city shift).filter
      (fun r => r.shift_sales == none) = [] := by
    rw [List.filter_eq_nil_iff]
    intro a ha
    simpa using h a ha
  have hsel : selectTargetDate (filterCityShift rs city shift) = none := by
    simp [selectTargetDate, hnl, sqlMin]
  refine ⟨hsel, ?_⟩
  simp [get_predictions, featureRowsOf, hsel, buildFeatureRows_none]

/-- Concrete instantiation of `no_placeholder_returns_empty`. -/
theorem no_placeholder_returns_empty_witness :
    (∀ r ∈ filterCityShift
        [⟨1, "Seattle", "AM", 1, some 10, 0, 0, 100, 1, 1⟩,
         ⟨1, "Seattle", "AM", 2, some 20, 0, 0, 100, 1, 2⟩] "Seattle" "AM",
      r.shift_sales ≠ none) ∧
    (selectTargetDate (filterCityShift
        [⟨1, "Seattle", "AM", 1, some 10, 0, 0, 100, 1, 1⟩,
         ⟨1, "Seattle", "AM", 2, some 20, 0, 0, 100, 1, 2⟩] "Seattle" "AM") = none ∧
      get_predictions (fun v => v.sum)
        [⟨1, "Seattle", "AM", 1, some 10, 0, 0, 100, 1, 1⟩,
         ⟨1, "Seattle", "AM", 2, some 20, 0, 0, 100, 1, 2⟩] "Seattle" "AM" = []) :=
  ⟨by decide, no_placeholder_returns_empty _ _ "Seattle" "AM" (by decide)⟩

/-- C4, counterexample to the claim as stated: for a city with zero rows in
the table, `get_predictions` does not fail with any error condition — it
returns an empty successful result. -/
theorem empty_city_returns_empty_counterexample :
    ([⟨1, "Seattle", "AM", 1, some 10, 0, 0, 100, 1, 1⟩] :
        List ShiftSalesRecord) ≠ [] ∧
    (∀ r ∈ ([⟨1, "Seattle", "AM", 1, some 10, 0, 0, 100, 1, 1⟩] :
        List ShiftSalesRecord), r.city ≠ "Portland") ∧
    get_predictions (fun v => v.sum)
      [⟨1, "Seattle", "AM", 1, some 10, 0, 0, 100, 1, 1⟩] "Portland" "AM" = [] := by
  refine ⟨by decide, by decide, ?_⟩
  exact rfl

/-- C4, amended: a city with zero historical rows makes every stage of the
pipeline operate on the empty table, and the caller receives an empty
successful result; no explicit EmptyCityResult error condition exists. -/
theorem empty_city_returns_empty (udf : List ℚ → ℚ)
    (rs : List ShiftSalesRecord) (city shift : String)
    (h : ∀ r ∈ rs, r.city ≠ city) :
    filterCityShift rs city shift = [] ∧ get_predictions udf rs city shift = [] := by
  have hf : filterCityShift rs city shift = [] := by
    rw [filterCityShift, List.filter_eq_nil_iff]
    intro a ha
    simp only [Bool.and_eq_true, beq_iff_eq, not_and]
    exact fun _ hc => absurd hc (h a ha)
  refine ⟨hf, ?_⟩
  simp [get_predictions, featureRowsOf, hf, computeTrailingAverage,
    computeTrailingAverageGo, selectTargetDate, sqlMin, buildFeatureRows]

/-- Concrete instantiation of `empty_city_returns_empty`. -/
theorem empty_city_returns_empty_witness :
    (∀ r ∈ ([⟨1, "Seattle", "AM", 1, some 10, 0, 0, 100, 1, 1⟩] :
        List ShiftSalesRecord), r.city ≠ "Portland") ∧
    (filterCityShift [⟨1, "Seattle", "AM", 1, some 10, 0, 0, 100, 1, 1⟩]
        "Portland" "AM" = [] ∧
      get_predictions (fun v => v.sum)
        [⟨1, "Seattle", "AM", 1, some 10, 0, 0, 100, 1, 1⟩] "Portland" "AM" = []) :=
  ⟨by decide, empty_city_returns_empty _ _ "Portland" "AM" (by decide)⟩

/-- C5: every row of the pipeline's output originates in a target-date row of
the windowed table, its `avg_location_shift_sales` feature is the imputed
`fillna` value, and when the trailing average was NULL (no prior observation)
the feature both carried into the output row and handed to the inference UDF
equals 0. -/
theorem get_predictions_imputes_missing_average (udf : List ℚ → ℚ)
    (rs : List ShiftSalesRecord) (city shift : String) (p : PredictionRow)
    (hp : p ∈ get_predictions udf rs city shift) :
    ∃ a f, a ∈ computeTrailingAverage (filterCityShift rs city shift) ∧
      f ∈ featureRowsOf rs city shift ∧
      selectTargetDate (filterCityShift rs city shift) = some a.row.date ∧
      f.avg_location_shift_sales = a.avg_location_shift_sales.getD 0 ∧
      p.avg_location_shift_sales = f.avg_location_shift_sales ∧
      p.predicted_shift_sales = udf (featureVector f) ∧
      (a.avg_location_shift_sales = none → f.avg_location_shift_sales = 0) := by
  simp only [get_predictions, List.mem_map] at hp
  obtain ⟨f, hf, hpf⟩ := hp
  have hf' := hf
  simp only [featureRowsOf, buildFeatureRows, List.mem_map, List.mem_filter] at hf
  obtain ⟨a, ⟨ha, hc⟩, haf⟩ := hf
  cases hd : selectTargetDate (filterCityShift rs city shift) with
  | none =>
    rw [hd] at hc
    simp at hc
  | some dd =>
    rw [hd] at hc
    have hdd : dd = a.row.date := (by simpa using hc : a.row.date = dd).symm
    subst haf
    subst hpf
    refine ⟨a, _, ha, hf', ?_, rfl, rfl, rfl, ?_⟩
    · rw [hdd]
    · intro h0
      simp [h0]

/-- C6: `buildFeatureRows` never reads the raw `shift_sales` column — replacing
every input row's raw sales value by anything whatsoever leaves its output
unchanged, so no feature row carries a raw sales value. -/
theorem buildFeatureRows_ignores_raw_sales (aug : List AugRecord)
    (d : Option Nat) (g : AugRecord → Option ℚ) :
    buildFeatureRows
      (aug.map (fun a => ⟨{ a.row with shift_sales := g a },
        a.avg_location_shift_sales⟩)) d =
      buildFeatureRows aug d := by
  cases d with
  | none => rw [buildFeatureRows_none, buildFeatureRows_none]
  | some dd =>
    induction aug with
    | nil => rfl
    | cons a t ih =>
      simp only [List.map_cons, buildFeatureRows, List.filter_cons] at ih ⊢
      by_cases hda : (a.row.date == dd) = true
      · simp only [hda, if_true]
        simp only [List.map_cons]
        rw [ih]
      · simp only [hda, if_false]
        exact ih

/-- C7: the `shift` value of every produced feature row is the binary encoding
of the source record's shift — 1 exactly on "AM", 0 on "PM" — and it is the
value sitting in the last slot of the feature vector handed to the UDF. -/
theorem buildFeatureRows_encodes_shift (aug : List AugRecord) (d : Option Nat)
    (f : FeatureRow) (hf : f ∈ buildFeatureRows aug d) :
    ∃ a, a ∈ aug ∧ f.shift = encodeShift a.row.shift ∧
      (a.row.shift = "AM" → f.shift = 1) ∧
      (a.row.shift = "PM" → f.shift = 0) ∧
      (featureVector f).getLast? = some f.shift := by
  simp only [buildFeatureRows, List.mem_map, List.mem_filter] at hf
  obtain ⟨a, ⟨ha, -⟩, haf⟩ := hf
  subst haf
  refine ⟨a, ha, rfl, ?_, ?_, rfl⟩
  · intro h
    simp [encodeShift, h]
  · intro h
    rw [h]
    show encodeShift "PM" = 0
    decide

/-- Concrete instantiation of `get_predictions_imputes_missing_average`. -/
theorem get_predictions_imputes_missing_average_witness :
    ∃ a f, a ∈ computeTrailingAverage (filterCityShift
        [⟨1, "Seattle", "AM", 5, none, 0, 0, 10, 2, 3⟩] "Seattle" "AM") ∧
      f ∈ featureRowsOf [⟨1, "Seattle", "AM", 5, none, 0, 0, 10, 2, 3⟩]
        "Seattle" "AM" ∧
      selectTargetDate (filterCityShift
        [⟨1, "Seattle", "AM", 5, none, 0, 0, 10, 2, 3⟩] "Seattle" "AM") =
        some a.row.date ∧
      f.avg_location_shift_sales = a.avg_location_shift_sales.getD 0 ∧
      PredictionRow.avg_location_shift_sales ⟨1, 0, 0, 0, 0⟩ =
        f.avg_location_shift_sales ∧
      PredictionRow.predicted_shift_sales ⟨1, 0, 0, 0, 0⟩ =
        (fun _ => (0 : ℚ)) (featureVector f) ∧
      (a.avg_location_shift_sales = none → f.avg_location_shift_sales = 0) :=
  get_predictions_imputes_missing_average (fun _ => (0 : ℚ))
    [⟨1, "Seattle", "AM", 5, none, 0, 0, 10, 2, 3⟩] "Seattle" "AM"
    ⟨1, 0, 0, 0, 0⟩
    (by
      rw [show get_predictions (fun _ => (0 : ℚ))
          [⟨1, "Seattle", "AM", 5, none, 0, 0, 10, 2, 3⟩] "Seattle" "AM" =
          [⟨1, 0, 0, 0, 0⟩] from rfl]
      exact List.mem_singleton_self _)

/-- Concrete instantiation of `buildFeatureRows_encodes_shift`. -/
theorem buildFeatureRows_encodes_shift_witness :
    ∃ a, a ∈ [(⟨⟨1, "Seattle", "PM", 5, none, 0, 0, 10, 2, 3⟩, some 7⟩ : AugRecord)] ∧
      FeatureRow.shift ⟨1, 0, 0, 7, 0, 2, 3, 10⟩ = encodeShift a.row.shift ∧
      (a.row.shift = "AM" → FeatureRow.shift ⟨1, 0, 0, 7, 0, 2, 3, 10⟩ = 1) ∧
      (a.row.shift = "PM" → FeatureRow.shift ⟨1, 0, 0, 7, 0, 2, 3, 10⟩ = 0) ∧
      (featureVector ⟨1, 0, 0, 7, 0, 2, 3, 10⟩).getLast? =
        some (FeatureRow.shift ⟨1, 0, 0, 7, 0, 2, 3, 10⟩) :=
  buildFeatureRows_encodes_shift
    [⟨⟨1, "Seattle", "PM", 5, none, 0, 0, 10, 2, 3⟩, some 7⟩] (some 5)
    ⟨1, 0, 0, 7, 0, 2, 3, 10⟩ (by decide)

/-- C8: at every position of the prediction result, the displayed value after
the clip is 0 when the predicted value was negative and the unchanged
predicted value otherwise; every other column is untouched. -/
theorem clipPredictions_clamps_negatives (ps : List PredictionRow) (i : Nat) :
    (clipPredictions ps)[i]? = ps[i]?.map
      (fun p => { p with predicted_shift_sales :=
        if p.predicted_shift_sales < 0 then 0 else p.predicted_shift_sales }) := by
  have hmax : ∀ q : ℚ, max q 0 = if q < 0 then 0 else q := by
    intro q
    rcases lt_or_le q 0 with hq | hq
    · rw [if_pos hq]
      exact max_eq_right hq.le
    · rw [if_neg (not_lt.mpr hq)]
      exact max_eq_left hq
  rw [clipPredictions, List.getElem?_map]
  cases ps[i]? with
  | none => rfl
  | some p => simp [hmax]

/-- C9: the pipeline is a pure function of the record set, the city and the
shift — two runs over unchanged inputs return identical feature-row sequences
and identical prediction rows. -/
theorem pipeline_deterministic (udf : List ℚ → ℚ)
    (rs₁ rs₂ : List ShiftSalesRecord) (city₁ city₂ shift₁ shift₂ : String)
    (hrs : rs₁ = rs₂) (hcity : city₁ = city₂) (hshift : shift₁ = shift₂) :
    featureRowsOf rs₁ city₁ shift₁ = featureRowsOf rs₂ city₂ shift₂ ∧
    get_predictions udf rs₁ city₁ shift₁ = get_predictions udf rs₂ city₂ shift₂ := by
  subst hrs hcity hshift
  exact ⟨rfl, rfl⟩

/-- Concrete instantiation of `pipeline_deterministic`. -/
theorem pipeline_deterministic_witness :
    featureRowsOf [⟨1, "Seattle", "AM", 5, none, 0, 0, 10, 2, 3⟩] "Seattle" "AM" =
      featureRowsOf [⟨1, "Seattle", "AM", 5, none, 0, 0, 10, 2, 3⟩] "Seattle" "AM" ∧
    get_predictions (fun _ => (0 : ℚ))
        [⟨1, "Seattle", "AM", 5, none, 0, 0, 10, 2, 3⟩] "Seattle" "AM" =
      get_predictions (fun _ => (0 : ℚ))
        [⟨1, "Seattle", "AM", 5, none, 0, 0, 10, 2, 3⟩] "Seattle" "AM" :=
  pipeline_deterministic (fun _ => (0 : ℚ)) _ _ _ _ _ _ rfl rfl rfl

theorem filterMap_id_eq_nil {l : List (Option ℚ)} (h : ∀ o ∈ l, o = none) :
    l.filterMap id = [] := by
  induction l with
  | nil => rfl
  | cons o t ih =>
    have ho : o = none := h o (List.mem_cons_self o t)
    subst ho
    simp only [List.filterMap_cons, id]
    exact ih (fun o' ho' => h o' (List.mem_cons_of_mem _ ho'))

theorem sqlAvg_middle_none (x y : List (Option ℚ)) :
    sqlAvg (x ++ none :: y) = sqlAvg (x ++ y) := by
  unfold sqlAvg
  rw [List.filterMap_append, List.filterMap_append]
  simp [List.filterMap_cons]

theorem sqlAvg_frame_drop_null (r0 r : ShiftSalesRecord)
    (h : r0.shift_sales = none) (b₁ b₂ after : List ShiftSalesRecord) :
    sqlAvg (frameSales (b₁ ++ r0 :: b₂) r after) =
      sqlAvg (frameSales (b₁ ++ b₂) r after) := by
  unfold frameSales
  simp only [List.filter_append, List.filter_cons, List.map_append]
  by_cases hc : (sameWindowPartition r0 r && decide (r0.date ≤ r.date)) = true
  · rw [if_pos hc]
    simp only [List.map_cons, h, List.append_assoc, List.cons_append]
    exact sqlAvg_middle_none _ _
  · rw [if_neg hc]

theorem computeTrailingAverageGo_drop_null (r0 : ShiftSalesRecord)
    (h : r0.shift_sales = none) :
    ∀ (l b₂ b₁ : List ShiftSalesRecord),
      computeTrailingAverageGo (b₁ ++ r0 :: b₂) l =
        computeTrailingAverageGo (b₁ ++ b₂) l := by
  intro l
  induction l with
  | nil => intro b₂ b₁; rfl
  | cons r t ih =>
    intro b₂ b₁
    simp only [computeTrailingAverageGo]
    refine congrArg₂ _ ?_ ?_
    · exact congrArg (fun q => AugRecord.mk r q)
        (sqlAvg_frame_drop_null r0 r h b₁ b₂ t)
    · have e1 : (b₁ ++ r0 :: b₂) ++ [r] = b₁ ++ r0 :: (b₂ ++ [r]) := by simp
      have e2 : (b₁ ++ b₂) ++ [r] = b₁ ++ (b₂ ++ [r]) := by
        rw [List.append_assoc]
      rw [e1, e2]
      exact ih (b₂ ++ [r]) b₁

/-- C10: null `shift_sales` values contribute neither to the sum nor to the
count of the trailing average.  Prepending a null-sales placeholder row to the
table gives every original row the very same `avg_location_shift_sales` as
before; a NULL inside a frame's value list leaves the SQL average unchanged;
and a frame holding at least one non-null value always has a defined (non-NULL)
average. -/
theorem trailing_average_ignores_null_sales (rs : List ShiftSalesRecord)
    (r0 : ShiftSalesRecord) (h : r0.shift_sales = none)
    (l : List (Option ℚ)) (q : ℚ) (hq : some q ∈ l) :
    computeTrailingAverage (r0 :: rs) =
      ⟨r0, sqlAvg (frameSales [] r0 rs)⟩ :: computeTrailingAverage rs ∧
    sqlAvg (none :: l) = sqlAvg l ∧
    (sqlAvg l).isSome = true := by
  refine ⟨?_, ?_, ?_⟩
  · show computeTrailingAverageGo [] (r0 :: rs) = _
    simp only [computeTrailingAverageGo]
    have hdrop := computeTrailingAverageGo_drop_null r0 h rs [] []
    simp only [List.nil_append, List.append_nil] at hdrop
    rw [List.nil_append]
    rw [hdrop]
    rfl
  · simpa using sqlAvg_middle_none [] l
  · have hmem : q ∈ l.filterMap id := List.mem_filterMap.mpr ⟨some q, hq, rfl⟩
    have hne : l.filterMap id ≠ [] := List.ne_nil_of_mem hmem
    simp only [sqlAvg]
    rw [if_neg (by simpa [List.isEmpty_iff] using hne)]
    rfl

/-- Concrete instantiation of `trailing_average_ignores_null_sales`. -/
theorem trailing_average_ignores_null_sales_witness :
    computeTrailingAverage
        [⟨1, "Seattle", "AM", 1, none, 0, 0, 10, 2, 3⟩,
         ⟨1, "Seattle", "AM", 2, some 20, 0, 0, 10, 2, 4⟩,
         ⟨1, "Seattle", "AM", 3, none, 0, 0, 10, 2, 5⟩] =
      ⟨⟨1, "Seattle", "AM", 1, none, 0, 0, 10, 2, 3⟩,
        sqlAvg (frameSales [] ⟨1, "Seattle", "AM", 1, none, 0, 0, 10, 2, 3⟩
          [⟨1, "Seattle", "AM", 2, some 20, 0, 0, 10, 2, 4⟩,
           ⟨1, "Seattle", "AM", 3, none, 0, 0, 10, 2, 5⟩])⟩ ::
        computeTrailingAverage
          [⟨1, "Seattle", "AM", 2, some 20, 0, 0, 10, 2, 4⟩,
           ⟨1, "Seattle", "AM", 3, none, 0, 0, 10, 2, 5⟩] ∧
    sqlAvg (none :: [none, some 20]) = sqlAvg [none, some 20] ∧
    (sqlAvg [none, some 20]).isSome = true :=
  trailing_average_ignores_null_sales
    [⟨1, "Seattle", "AM", 2, some 20, 0, 0, 10, 2, 4⟩,
     ⟨1, "Seattle", "AM", 3, none, 0, 0, 10, 2, 5⟩]
    ⟨1, "Seattle", "AM", 1, none, 0, 0, 10, 2, 3⟩ rfl
    [none, some 20] 20 (by decide)
